import Mathlib

/-!
Verification of the task-management dashboard's core logic.

This file gives a shallow embedding of the pure logic of the repository:
status/date normalization and filtering from `src/components/TasksTable.vue`,
the strict task-form submission from `src/components/TaskModal.vue`,
and the collection-mutating operations from `src/composables/useTasks.ts`
together with their callers (`confirmDelete` in the table view and
`handleSave` in `src/views/DashboardView.vue`).

JavaScript strings are embedded as Lean `String`s; the handful of
`String.prototype` operations the source uses (`toLowerCase`, `trim`,
`includes`) are modelled on the underlying character lists. The host's
`Date` parser and locale renderer, which live outside the repository, are
abstracted as oracle parameters.
-/

namespace Dashboard

/-- Model of `String.prototype.toLowerCase` (the source only ever compares
ASCII status words, for which `Char.toLower` agrees with JS). -/
def jsToLower (s : String) : String :=
  ⟨s.data.map Char.toLower⟩

/-- Model of `String.prototype.trim`: strip leading and trailing whitespace. -/
def jsTrim (s : String) : String :=
  ⟨((s.data.dropWhile Char.isWhitespace).reverse.dropWhile Char.isWhitespace).reverse⟩

/-- Predicate `beginsWith pat xs` is true when `pat` is a prefix of `xs`. -/
def beginsWith : List Char → List Char → Bool
  | [], _ => true
  | _ :: _, [] => false
  | p :: ps, x :: xs => p == x && beginsWith ps xs

/-- Predicate `containsSeq pat xs` is true when `pat` occurs contiguously in `xs`. -/
def containsSeq (pat : List Char) : List Char → Bool
  | [] => pat.isEmpty
  | x :: xs => beginsWith pat (x :: xs) || containsSeq pat xs

/-- Model of `String.prototype.includes`: substring containment. -/
def jsIncludes (s pat : String) : Bool :=
  containsSeq pat.data s.data

/-- The dynamic type of the `raw` argument of `normalizeStatus`
(`string | boolean | null | undefined` in the source). -/
inductive RawStatus where
  | bool (b : Bool)
  | str (s : String)
  | null
  | undef
deriving DecidableEq

/-- JS `String(raw)` on a `RawStatus` value. -/
def RawStatus.jsString : RawStatus → String
  | .bool true => "true"
  | .bool false => "false"
  | .str s => s
  | .null => "null"
  | .undef => "undefined"

/-- JS `String(raw ?? '')`: nullish values collapse to the empty string
before stringification. -/
def RawStatus.jsStringOrEmpty : RawStatus → String
  | .null => ""
  | .undef => ""
  | r => r.jsString

/-- Function `normalizeStatus` from `src/components/TasksTable.vue` (lines 36–50),
translated branch for branch. -/
def normalizeStatus (raw : RawStatus) : String :=
  if raw = RawStatus.bool true ∨ jsToLower raw.jsString = "done" ∨
      jsToLower raw.jsString = "completed" then "Done"
  else
    let s := jsToLower raw.jsStringOrEmpty
    if jsIncludes s "in" && jsIncludes s "progress" then "In Progress"
    else if jsIncludes s "progress" || jsIncludes s "doing" then "In Progress"
    else if jsIncludes s "todo" || s = "open" || s = "" then "To Do"
    else if jsIncludes s "done" || jsIncludes s "completed" then "Done"
    else "To Do"

/-- The spec's ordered classification of raw statuses, written from the
spec's words: boolean `true` or the case-insensitive literal strings
"done"/"completed" give `Done`; otherwise a string containing both "in" and
"progress", or containing "progress" or "doing", gives `In Progress`;
otherwise a string containing "todo", equal to "open", or empty gives
`To Do`; otherwise a string containing "done" or "completed" gives `Done`;
any other input gives `To Do`. -/
def specNormalizeStatus (raw : RawStatus) : String :=
  if raw = RawStatus.bool true then "Done"
  else
    match raw with
    | RawStatus.str s =>
      let l := jsToLower s
      if l = "done" ∨ l = "completed" then "Done"
      else if jsIncludes l "in" && jsIncludes l "progress" then "In Progress"
      else if jsIncludes l "progress" || jsIncludes l "doing" then "In Progress"
      else if jsIncludes l "todo" || l = "open" || l = "" then "To Do"
      else if jsIncludes l "done" || jsIncludes l "completed" then "Done"
      else "To Do"
    | _ => "To Do"

/-- Variant of `normalizeStatus` with its final `done`/`completed` substring branch
deleted, for comparison against the original. -/
def normalizeStatusNoFinal (raw : RawStatus) : String :=
  if raw = RawStatus.bool true ∨ jsToLower raw.jsString = "done" ∨
      jsToLower raw.jsString = "completed" then "Done"
  else
    let s := jsToLower raw.jsStringOrEmpty
    if jsIncludes s "in" && jsIncludes s "progress" then "In Progress"
    else if jsIncludes s "progress" || jsIncludes s "doing" then "In Progress"
    else if jsIncludes s "todo" || s = "open" || s = "" then "To Do"
    else "To Do"

/-- Whether evaluation of `normalizeStatus` reaches its final
`done`/`completed` substring branch and returns `Done` from it: true exactly
when every earlier guard fails and the final guard holds. -/
def reachesFinalDoneBranch (raw : RawStatus) : Bool :=
  if raw = RawStatus.bool true ∨ jsToLower raw.jsString = "done" ∨
      jsToLower raw.jsString = "completed" then false
  else
    let s := jsToLower raw.jsStringOrEmpty
    if jsIncludes s "in" && jsIncludes s "progress" then false
    else if jsIncludes s "progress" || jsIncludes s "doing" then false
    else if jsIncludes s "todo" || s = "open" || s = "" then false
    else jsIncludes s "done" || jsIncludes s "completed"

/-- A task id: the backend may deliver strings or numbers
(`id: string | number`). -/
inductive Ident where
  | str (s : String)
  | num (n : Int)
deriving DecidableEq

/-- JS `String(id)`. -/
def Ident.jsString : Ident → String
  | .str s => s
  | .num n => toString n

/-- The dynamic type of the `due` field and of `formatDate`'s argument
(`string | number | null | undefined`); JS numbers are restricted to the
integral values the date arithmetic manipulates. -/
inductive JsValue where
  | num (n : Int)
  | str (s : String)
  | null
  | undef
deriving DecidableEq

/-- JS `String(value)` on a `JsValue`. -/
def JsValue.jsString : JsValue → String
  | .num n => toString n
  | .str s => s
  | .null => "null"
  | .undef => "undefined"

/-- The `Task` record of `src/components/TasksTable.vue`:
`{ id, title, description?, status?, due? }`. `none` stands for a
nullish (`null`/`undefined`) field. -/
structure Task where
  id : Ident
  title : String
  description : Option String
  status : RawStatus
  due : JsValue
deriving DecidableEq

/-- The query part of the filter predicate in `filteredTasks`
(`src/components/TasksTable.vue` lines 152–155): with an empty processed
query everything passes, otherwise the lowercased title or description must
contain the query. -/
def matchesQuery (q : String) (t : Task) : Bool :=
  if q = "" then true
  else jsIncludes (jsToLower t.title) q || jsIncludes (jsToLower (t.description.getD "")) q

/-- The whole filter predicate of `filteredTasks` (lines 148–156): a
non-`All` status filter must agree with the normalized status, then the
query match applies. -/
def keepTask (q statusFilter : String) (t : Task) : Bool :=
  if statusFilter ≠ "All" then
    if normalizeStatus t.status ≠ statusFilter then false
    else matchesQuery q t
  else matchesQuery q t

/-- Function `filteredTasks` from `src/components/TasksTable.vue` (lines 145–157):
trim and lowercase the query once, then filter the collection. -/
def filteredTasks (tasks : List Task) (query statusFilter : String) : List Task :=
  let q := jsToLower (jsTrim query)
  tasks.filter (keepTask q statusFilter)

/-- The spec's description of which tasks the filtered view keeps, written
from the spec's words: if the status filter is not "All" the normalized
status must equal it, and if the trimmed query is non-empty the lowercased
title or description must contain the trimmed lowercased query; both
conditions are ANDed. -/
def specKeepsTask (query statusFilter : String) (t : Task) : Bool :=
  (statusFilter = "All" || normalizeStatus t.status = statusFilter) &&
    (jsTrim query = "" ||
      jsIncludes (jsToLower t.title) (jsToLower (jsTrim query)) ||
      jsIncludes (jsToLower (t.description.getD "")) (jsToLower (jsTrim query)))

/-- First task of the spec's filtering example. -/
def exTaskMilk : Task :=
  { id := Ident.num 1, title := "Buy milk", description := none,
    status := RawStatus.str "done", due := JsValue.null }

/-- Second task of the spec's filtering example. -/
def exTaskReport : Task :=
  { id := Ident.num 2, title := "Write report", description := none,
    status := RawStatus.str "todo", due := JsValue.null }

/-- The dynamic type of a caught error (`unknown` in the source), classified
by the only distinctions `getErrorMessage` observes: a string, an object
carrying a string `message` field, or anything else. -/
inductive JsError where
  | str (s : String)
  | objWithMessage (m : String)
  | other
deriving DecidableEq

/-- Function `getErrorMessage` from `src/components/TasksTable.vue` (lines 75–83). -/
def getErrorMessage : JsError → String
  | JsError.str s => s
  | JsError.objWithMessage m => m
  | JsError.other => "Failed to load"

/-- The reactive state of the task-list controller that `confirmDelete`
touches: the collection held by the `useTasks` composable plus the delete
dialog's refs. -/
structure ListState where
  tasks : List Task
  showDeleteModal : Bool
  taskToDelete : Option Task
  deleting : Bool
  error : Option String
deriving DecidableEq

/-- Function `confirmDelete` from `src/components/TasksTable.vue` (lines 113–133),
composed with `deleteTask` from `src/composables/useTasks.ts` (lines 53–57),
which is the branch taken since the composable provides `deleteTask`.
The `repo` argument is the outcome of the awaited HTTP delete: on success
the composable filters out every task whose `String(id)` matches and the
handler closes the dialog; on rejection nothing has been filtered yet, the
catch records the message, and the `finally` clears the in-progress flag. -/
def confirmDelete (st : ListState) (repo : Except JsError Unit) : ListState :=
  match st.taskToDelete with
  | none => st
  | some sel =>
    match repo with
    | Except.ok _ =>
      { tasks := st.tasks.filter (fun t => t.id.jsString ≠ sel.id.jsString),
        showDeleteModal := false, taskToDelete := none,
        deleting := false, error := none }
    | Except.error e =>
      { tasks := st.tasks, showDeleteModal := st.showDeleteModal,
        taskToDelete := st.taskToDelete,
        deleting := false, error := some (getErrorMessage e) }

/-- A task with the numeric id `1`. -/
def taskA : Task :=
  { id := Ident.num 1, title := "A", description := none,
    status := RawStatus.str "todo", due := JsValue.null }

/-- A task distinct from `taskA` whose string id `"1"` stringifies the same
as `taskA`'s numeric id. -/
def taskB : Task :=
  { id := Ident.str "1", title := "B", description := none,
    status := RawStatus.str "todo", due := JsValue.null }

/-- A task with the numeric id `2`, sharing its stringified id with nobody
in these fixtures. -/
def taskC : Task :=
  { id := Ident.num 2, title := "C", description := none,
    status := RawStatus.str "todo", due := JsValue.null }

/-- A state holding `taskA` and `taskB` — two distinct tasks whose ids
stringify identically — with `taskA` selected for deletion. -/
def dupIdState : ListState :=
  { tasks := [taskA, taskB], showDeleteModal := true,
    taskToDelete := some taskA, deleting := true, error := none }

/-- A state holding `taskA` and `taskC` — whose stringified ids differ —
with `taskA` selected for deletion. -/
def uniqIdState : ListState :=
  { tasks := [taskA, taskC], showDeleteModal := true,
    taskToDelete := some taskA, deleting := true, error := none }

/-- The state of one `useTasks()` composable instance
(`src/composables/useTasks.ts`): the `tasks` and `loading` refs. -/
structure TasksState where
  tasks : List Task
  loading : Bool
deriving DecidableEq

/-- The initial composable state: `ref<Task[]>([])` and `ref(true)`. -/
def initialTasksState : TasksState :=
  { tasks := [], loading := true }

/-- Function `loadTasks` from `src/composables/useTasks.ts` (lines 17–21). The
`result` argument is the outcome of `fetch` + `res.json()`: on success the
collection is replaced and `loading` cleared; if either await rejects,
neither assignment runs, so the state is untouched. -/
def loadTasks (st : TasksState) (result : Except JsError (List Task)) : TasksState :=
  match result with
  | Except.ok server => { tasks := server, loading := false }
  | Except.error _ => st

/-- Function `createTask` from `src/composables/useTasks.ts` (lines 23–33), success
path: the created task returned by the server is prepended to the
composable's collection (`tasks.value = [created, ...tasks.value]`). -/
def createTask (st : TasksState) (created : Task) : TasksState :=
  { tasks := created :: st.tasks, loading := st.loading }

/-- The success path of `handleSave` in `src/views/DashboardView.vue`
(lines 38–59): `await createTask(payload)` then `await loadTasks()` with the
server's list as the reload result. -/
def handleSaveCreate (st : TasksState) (created : Task) (server : List Task) :
    TasksState :=
  loadTasks (createTask st created) (Except.ok server)

/-- The pane the tasks-table template shows (lines 212–215 of
`src/components/TasksTable.vue`): `v-if="loading"` wins over
`v-else-if="error"`, which wins over the table. -/
inductive Pane where
  | loadingPane
  | errorPane
  | tablePane
deriving DecidableEq

/-- Which pane is displayed for given `loading` and `error` state. -/
def displayedPane (loading : Bool) (error : Option String) : Pane :=
  if loading then Pane.loadingPane
  else
    match error with
    | some _ => Pane.errorPane
    | none => Pane.tablePane

/-- The fields of `props.initial` that survive the merge in the strict
modal's `save` (everything else is overridden); `id` is the only `Task`
field not overwritten by the form. `none` means the field is absent. -/
structure PartialTask where
  id : Option Ident
deriving DecidableEq

/-- The payload object built by the strict modal's `save`
(`src/components/TaskModal.vue`). -/
structure Payload where
  id : Option Ident
  title : String
  description : Option String
  status : String
  due : Option String
deriving DecidableEq

/-- The local form state of the strict `TaskModal`
(`reactive` block, lines 53–63). -/
structure FormState where
  title : String
  description : String
  status : String
  dueInput : String
deriving DecidableEq

namespace TaskModal

/-- Rule `titleValid` (line 101): title non-empty after trim. -/
def titleValid (f : FormState) : Bool :=
  0 < (jsTrim f.title).length

/-- Rule `descriptionValid` (line 102): description non-empty after trim. -/
def descriptionValid (f : FormState) : Bool :=
  0 < (jsTrim f.description).length

/-- Rule `statusValid` (line 103): status is one of the three canonical values. -/
def statusValid (f : FormState) : Bool :=
  f.status = "To Do" || f.status = "In Progress" || f.status = "Done"

/-- Rule `dueValid` (lines 104–108): a non-empty date input that the host's
`new Date(...)` accepts. The host date parser is abstracted as the `dateOk`
oracle since `Date` parsing lives outside the repository. -/
def dueValid (dateOk : String → Bool) (f : FormState) : Bool :=
  if f.dueInput = "" then false else dateOk f.dueInput

/-- Rule `formValid` (lines 109–111). -/
def formValid (dateOk : String → Bool) (f : FormState) : Bool :=
  titleValid f && descriptionValid f && statusValid f && dueValid dateOk f

/-- The payload construction in `save` (lines 127–133): spread of
`props.initial`, then trimmed title, empty description normalized to null,
the form's status, and `normalizeDueFromInput` of the raw date input
(lines 47–50: empty becomes null, anything else is kept verbatim). -/
def buildPayload (initial : Option PartialTask) (f : FormState) : Payload :=
  { id :=
      match initial with
      | some i => i.id
      | none => none,
    title := jsTrim f.title,
    description := if f.description = "" then none else some f.description,
    status := f.status,
    due := if f.dueInput = "" then none else some f.dueInput }

/-- The events a call of the strict modal's `save` (lines 118–136) emits, in
order. -/
inductive Event where
  | saveEvt (p : Payload)
  | closeEvt
deriving DecidableEq

/-- Whether an event is a `save` event. -/
def Event.isSave : Event → Bool
  | .saveEvt _ => true
  | .closeEvt => false

/-- Function `save` from the strict `TaskModal` (lines 118–136), as the list of
emitted events: nothing when validation fails (the early return; only the
`touched` and `submitted` flags change), otherwise exactly one `save` with
the payload followed by one `close`. -/
def save (dateOk : String → Bool) (initial : Option PartialTask) (f : FormState) :
    List Event :=
  if formValid dateOk f then
    [Event.saveEvt (buildPayload initial f), Event.closeEvt]
  else []

end TaskModal

/-- A date-parsing oracle accepting every non-empty string, for concrete
instantiations. -/
def demoDateOk : String → Bool :=
  fun s => !(s == "")

/-- A form whose title needs trimming and which passes every rule. -/
def demoForm : FormState :=
  { title := " Title ", description := "Desc", status := "Done",
    dueInput := "2024-01-02" }

/-- A form whose title is whitespace only (empty after trim). -/
def demoFormBlankTitle : FormState :=
  { title := "   ", description := "Desc", status := "Done",
    dueInput := "2024-01-02" }

/-- Decimal digits to a number, `none` when the list is empty or contains a
non-digit. -/
def digitsToNat : List Char → Option Nat
  | [] => none
  | cs =>
    if cs.all Char.isDigit then
      some (cs.foldl (fun a c => a * 10 + (c.toNat - 48)) 0)
    else none

/-- Model of JS `Number(string)` on the fragment the date logic exercises:
the input is trimmed, an all-whitespace string yields `0`, an optionally
signed decimal integer literal yields its value, and anything else is `NaN`
(`none`). Fractional, exponent and hex literals are outside the fragment
modelled here. -/
def jsNumber (s : String) : Option Int :=
  match (jsTrim s).data with
  | [] => some 0
  | '-' :: rest => (digitsToNat rest).map (fun n => -(n : Int))
  | '+' :: rest => (digitsToNat rest).map (fun n => (n : Int))
  | cs => (digitsToNat cs).map (fun n => (n : Int))

/-- The JS `Date` range: `new Date(ms)` is a valid date exactly when
`|ms| ≤ 8.64e15`. -/
def dateInRange (n : Int) : Prop :=
  -8640000000000000 ≤ n ∧ n ≤ 8640000000000000

instance (n : Int) : Decidable (dateInRange n) := by
  unfold dateInRange
  infer_instance

/-- Function `formatDate` from `src/components/TasksTable.vue` (lines 52–73).
`parseDate` abstracts the host's `new Date(string)` parser (`none` for an
invalid date) and `render` abstracts `Date.prototype.toLocaleDateString` on
the resulting epoch-milliseconds; both live outside the repository. -/
def formatDate (parseDate : String → Option Int) (render : Int → String)
    (value : JsValue) : String :=
  if value = JsValue.undef ∨ value = JsValue.null ∨ value = JsValue.str "" then "-"
  else
    let num : Option Int :=
      match value with
      | JsValue.num n => some n
      | _ => jsNumber value.jsString
    match num with
    | some n0 =>
      let n := if 0 < n0 ∧ n0 < 1000000000000 then n0 * 1000 else n0
      if dateInRange n then render n
      else value.jsString
    | none =>
      match parseDate value.jsString with
      | some ms => render ms
      | none => value.jsString

/-- A host date parser that rejects everything, for concrete
instantiations. -/
def demoParseNone : String → Option Int :=
  fun _ => none

/-- A host date parser that maps everything to the epoch, for concrete
instantiations. -/
def demoParseZero : String → Option Int :=
  fun _ => some 0

/-- A locale renderer that prints the epoch-milliseconds value, for
concrete instantiations. -/
def demoRender : Int → String :=
  fun n => toString n

/-! ## Helper lemmas -/

/-- Lowercasing preserves emptiness: `toLowerCase` maps characters
one-to-one. -/
theorem jsToLower_eq_empty_iff (s : String) : jsToLower s = "" ↔ s = "" := by
  constructor
  · intro h
    have hd := congrArg String.data h
    simp only [jsToLower] at hd
    exact String.ext (List.map_eq_nil_iff.mp hd)
  · intro h; rw [h]; rfl

/-- Filtering away the matches of `p` shortens a list by exactly the number
of matches. -/
theorem length_filter_not {α : Type} (p : α → Bool) (l : List α) :
    (l.filter fun a => !p a).length + l.countP p = l.length := by
  induction l with
  | nil => rfl
  | cons x xs ih =>
    cases h : p x <;> simp [List.filter_cons, List.countP_cons, h] <;> omega

/-! ## Claims -/

/-- C1: for every raw status input, `normalizeStatus` agrees with the spec's
ordered classification; in particular `true`, "completed", "in progress",
"", and "doing" map to `Done`, `Done`, `In Progress`, `To Do` and
`In Progress` respectively, and the result is always one of the three
canonical statuses. -/
theorem normalizeStatus_matches_spec (raw : RawStatus) :
    normalizeStatus raw = specNormalizeStatus raw ∧
    normalizeStatus (RawStatus.bool true) = "Done" ∧
    normalizeStatus (RawStatus.str "completed") = "Done" ∧
    normalizeStatus (RawStatus.str "in progress") = "In Progress" ∧
    normalizeStatus (RawStatus.str "") = "To Do" ∧
    normalizeStatus (RawStatus.str "doing") = "In Progress" ∧
    (normalizeStatus raw = "To Do" ∨ normalizeStatus raw = "In Progress" ∨
      normalizeStatus raw = "Done") := by
  refine ⟨?_, by decide, by decide, by decide, by decide, by decide, ?_⟩
  · cases raw with
    | bool b => cases b <;> decide
    | null => decide
    | undef => decide
    | str s =>
      simp [normalizeStatus, specNormalizeStatus, RawStatus.jsString,
        RawStatus.jsStringOrEmpty]
  · simp only [normalizeStatus]
    split_ifs <;> decide

/-- C2 counterexample: the final `done`/`completed` substring branch of
`normalizeStatus` is NOT dead code. On the input "is done" — which the
top exact-match check does not catch — evaluation reaches the final branch
and returns "Done" from it, and deleting the branch would change the result
to "To Do", so the function with the branch deleted is not extensionally
equal to the original. -/
theorem normalizeStatus_final_branch_fires :
    normalizeStatus (RawStatus.str "is done") = "Done" ∧
    normalizeStatusNoFinal (RawStatus.str "is done") = "To Do" ∧
    reachesFinalDoneBranch (RawStatus.str "is done") = true ∧
    ¬(∀ raw, normalizeStatus raw = normalizeStatusNoFinal raw) := by
  refine ⟨by decide, by decide, by decide, fun h => ?_⟩
  have := h (RawStatus.str "is done")
  revert this
  decide

/-- C2 amended: the final `done`/`completed` substring branch is reachable;
deleting it changes `normalizeStatus` exactly on the inputs whose evaluation
reaches it — the strings that contain "done" or "completed" without being
(case-insensitively) equal to them and without matching any earlier guard,
such as "done!". -/
theorem normalizeStatus_final_branch_reachability :
    (∀ raw, (normalizeStatus raw = normalizeStatusNoFinal raw ↔
      reachesFinalDoneBranch raw = false)) ∧
    reachesFinalDoneBranch (RawStatus.str "done!") = true := by
  refine ⟨fun raw => ?_, by decide⟩
  simp only [normalizeStatus, normalizeStatusNoFinal, reachesFinalDoneBranch]
  cases hA : jsIncludes (jsToLower raw.jsStringOrEmpty) "done" <;>
    cases hB : jsIncludes (jsToLower raw.jsStringOrEmpty) "completed" <;>
      split_ifs <;> simp_all

/-- C3: the filtered view consists exactly of the tasks passing the spec's
conjoined status and trimmed-lowercased-query conditions, for every
collection, query and status filter; on the spec's example list, the
"Done" filter keeps only the first task, the query "report" keeps only the
second, and an unsatisfiable combination yields the empty sequence. -/
theorem filteredTasks_matches_spec :
    (∀ (tasks : List Task) (query statusFilter : String),
      filteredTasks tasks query statusFilter =
        tasks.filter (specKeepsTask query statusFilter)) ∧
    filteredTasks [exTaskMilk, exTaskReport] "" "Done" = [exTaskMilk] ∧
    filteredTasks [exTaskMilk, exTaskReport] "report" "All" = [exTaskReport] ∧
    filteredTasks [exTaskMilk, exTaskReport] "report" "Done" = [] := by
  refine ⟨fun tasks query statusFilter => ?_, by decide, by decide, by decide⟩
  refine List.filter_congr fun t _ => ?_
  simp only [keepTask, matchesQuery, specKeepsTask]
  by_cases h1 : statusFilter = "All" <;>
    by_cases h2 : normalizeStatus t.status = statusFilter <;>
      by_cases h3 : jsTrim query = "" <;>
        simp_all [jsToLower_eq_empty_iff]

/-- C4: the strict modal's `save` emits a `save` event exactly when all four
validation rules hold; on a valid submission it emits exactly one `save`
event carrying the initial task's id merged with the trimmed title, the
description with the empty string normalized to null, the form's status and
the raw date input, followed by a `close`; on any invalid submission — in
particular a title that is empty after trimming — it emits nothing. -/
theorem taskModal_save_correct (dateOk : String → Bool)
    (initial : Option PartialTask) (f : FormState) :
    ((∃ p, TaskModal.Event.saveEvt p ∈ TaskModal.save dateOk initial f) ↔
      (TaskModal.titleValid f = true ∧ TaskModal.descriptionValid f = true ∧
        TaskModal.statusValid f = true ∧ TaskModal.dueValid dateOk f = true)) ∧
    (TaskModal.formValid dateOk f = true →
      TaskModal.save dateOk initial f =
        [TaskModal.Event.saveEvt
          { id :=
              match initial with
              | some i => i.id
              | none => none,
            title := jsTrim f.title,
            description := if f.description = "" then none else some f.description,
            status := f.status,
            due := if f.dueInput = "" then none else some f.dueInput },
         TaskModal.Event.closeEvt] ∧
      (TaskModal.save dateOk initial f).countP TaskModal.Event.isSave = 1) ∧
    (TaskModal.formValid dateOk f = false → TaskModal.save dateOk initial f = []) ∧
    (jsTrim f.title = "" → TaskModal.save dateOk initial f = []) := by
  refine ⟨⟨?_, ?_⟩, fun hv => ⟨?_, ?_⟩, fun hv => ?_, fun ht => ?_⟩
  · rintro ⟨p, hp⟩
    by_cases h : TaskModal.formValid dateOk f = true
    · simp only [TaskModal.formValid, Bool.and_eq_true] at h
      tauto
    · simp [TaskModal.save, h] at hp
  · rintro ⟨h1, h2, h3, h4⟩
    exact ⟨TaskModal.buildPayload initial f,
      by simp [TaskModal.save, TaskModal.formValid, h1, h2, h3, h4]⟩
  · simp [TaskModal.save, hv, TaskModal.buildPayload]
  · simp [TaskModal.save, hv, List.countP_cons, TaskModal.Event.isSave]
  · simp [TaskModal.save, hv]
  · have hb : TaskModal.titleValid f = false := by
      simp [TaskModal.titleValid, ht]
    simp [TaskModal.save, TaskModal.formValid, hb]

/-- C4 witness: on a concrete valid form the payload carries the trimmed
title, and on a concrete whitespace-titled form nothing is emitted. -/
theorem taskModal_save_correct_witness :
    TaskModal.save demoDateOk none demoForm =
      [TaskModal.Event.saveEvt
        { id := none, title := "Title", description := some "Desc",
          status := "Done", due := some "2024-01-02" },
       TaskModal.Event.closeEvt] ∧
    TaskModal.save demoDateOk none demoFormBlankTitle = [] := by
  constructor
  · have h := (taskModal_save_correct demoDateOk none demoForm).2.1 (by decide)
    exact h.1.trans (by decide)
  · exact (taskModal_save_correct demoDateOk none demoFormBlankTitle).2.2.2 (by decide)

/-- C5 counterexample: with two distinct tasks in the collection whose ids
stringify identically (`1 : number` and `"1" : string`), confirming a
successful delete of the first removes BOTH — the collection drops from two
tasks to none, and `taskB`, a task different from the selected one, is no
longer present. -/
theorem confirmDelete_removes_two :
    dupIdState.tasks.length = 2 ∧
    (confirmDelete dupIdState (Except.ok ())).tasks = [] ∧
    taskB ∈ dupIdState.tasks ∧
    taskB ∉ (confirmDelete dupIdState (Except.ok ())).tasks ∧
    dupIdState.taskToDelete = some taskA ∧
    taskB ≠ taskA := by
  refine ⟨by decide, by decide, by decide, by decide, by decide, by decide⟩

/-- C5 amended: a confirmed successful delete removes from the collection
exactly the tasks whose stringified id equals the selected task's
stringified id, keeps the others in their original relative order, and
closes the dialog; when exactly one task carries that stringified id —
the case of client collections with unique ids — exactly one task is
removed and every other task keeps its multiplicity. -/
theorem confirmDelete_success_unique (st : ListState) (sel : Task)
    (h : st.taskToDelete = some sel)
    (huniq : st.tasks.countP (fun t => t.id.jsString = sel.id.jsString) = 1) :
    (confirmDelete st (Except.ok ())).tasks =
      st.tasks.filter (fun t => t.id.jsString ≠ sel.id.jsString) ∧
    (confirmDelete st (Except.ok ())).tasks.length + 1 = st.tasks.length ∧
    List.Sublist (confirmDelete st (Except.ok ())).tasks st.tasks ∧
    (∀ t ∈ (confirmDelete st (Except.ok ())).tasks, t.id.jsString ≠ sel.id.jsString) ∧
    (∀ t : Task, t.id.jsString ≠ sel.id.jsString →
      (confirmDelete st (Except.ok ())).tasks.count t = st.tasks.count t) ∧
    (confirmDelete st (Except.ok ())).showDeleteModal = false := by
  refine ⟨?_, ?_, ?_, ?_, ?_, ?_⟩
  · simp [confirmDelete, h]
  · simp only [confirmDelete, h]
    have hlen := length_filter_not
      (fun t => decide (t.id.jsString = sel.id.jsString)) st.tasks
    simp only [decide_eq_true_eq] at huniq hlen
    simp only [ne_eq, decide_not]
    omega
  · simp only [confirmDelete, h]
    exact List.filter_sublist st.tasks
  · intro t ht
    simp only [confirmDelete, h] at ht
    simpa using List.of_mem_filter ht
  · intro t ht
    simp only [confirmDelete, h]
    exact List.count_filter (by simpa using ht)
  · simp [confirmDelete, h]

/-- C5 witness: in the state with distinct stringified ids, confirming the
delete of `taskA` leaves exactly `[taskC]` and closes the dialog. -/
theorem confirmDelete_success_unique_witness :
    (confirmDelete uniqIdState (Except.ok ())).tasks = [taskC] ∧
    (confirmDelete uniqIdState (Except.ok ())).showDeleteModal = false := by
  have h := confirmDelete_success_unique uniqIdState taskA rfl (by decide)
  exact ⟨h.1.trans (by decide), h.2.2.2.2.2⟩

/-- C6: if the repository delete rejects, the collection is exactly
unchanged, the dialog stays open with the same task selected, the
in-progress flag is cleared, and the shown message follows the
extract-message rule: a string error verbatim, an object's string `message`
field, or the fixed default otherwise. -/
theorem confirmDelete_failure_atomic (st : ListState) (sel : Task) (e : JsError)
    (h : st.taskToDelete = some sel) (hopen : st.showDeleteModal = true) :
    (confirmDelete st (Except.error e)).tasks = st.tasks ∧
    (confirmDelete st (Except.error e)).showDeleteModal = true ∧
    (confirmDelete st (Except.error e)).taskToDelete = some sel ∧
    (confirmDelete st (Except.error e)).error = some (getErrorMessage e) ∧
    (confirmDelete st (Except.error e)).deleting = false ∧
    (∀ s, getErrorMessage (JsError.str s) = s) ∧
    (∀ m, getErrorMessage (JsError.objWithMessage m) = m) ∧
    getErrorMessage JsError.other = "Failed to load" := by
  refine ⟨?_, ?_, ?_, ?_, ?_, fun s => rfl, fun m => rfl, rfl⟩ <;>
    simp [confirmDelete, h, hopen]

/-- C6 witness: a concrete failing delete leaves the two-task collection
untouched, keeps the dialog open on the selected task, and shows the
string error verbatim. -/
theorem confirmDelete_failure_atomic_witness :
    (confirmDelete dupIdState (Except.error (JsError.str "boom"))).tasks =
      dupIdState.tasks ∧
    (confirmDelete dupIdState (Except.error (JsError.str "boom"))).showDeleteModal =
      true ∧
    (confirmDelete dupIdState (Except.error (JsError.str "boom"))).error =
      some "boom" := by
  have h := confirmDelete_failure_atomic dupIdState taskA (JsError.str "boom") rfl rfl
  exact ⟨h.1, h.2.1, h.2.2.2.1⟩

/-- C7: `formatDate` satisfies the reference definition: nullish or empty
input yields "-"; a numeric or numeric-string value strictly between 0 and
1e12 is scaled by 1000 before rendering; a numeric value at or above 1e12
(within the `Date` range) renders directly; a non-numeric string goes
through the host date parser, rendered when it parses and returned verbatim
when it does not; `1700000000` and `1700000000000` render identically; and
"not a date" is not numeric. -/
theorem formatDate_correct (p : String → Option Int) (r : Int → String) :
    formatDate p r JsValue.null = "-" ∧
    formatDate p r JsValue.undef = "-" ∧
    formatDate p r (JsValue.str "") = "-" ∧
    (∀ n : Int, 0 < n → n < 1000000000000 →
      formatDate p r (JsValue.num n) = r (n * 1000)) ∧
    (∀ n : Int, 1000000000000 ≤ n → n ≤ 8640000000000000 →
      formatDate p r (JsValue.num n) = r n) ∧
    (∀ (s : String) (n : Int), s ≠ "" → jsNumber s = some n → 0 < n →
      n < 1000000000000 → formatDate p r (JsValue.str s) = r (n * 1000)) ∧
    (∀ (s : String) (ms : Int), s ≠ "" → jsNumber s = none → p s = some ms →
      formatDate p r (JsValue.str s) = r ms) ∧
    (∀ s : String, s ≠ "" → jsNumber s = none → p s = none →
      formatDate p r (JsValue.str s) = s) ∧
    formatDate p r (JsValue.num 1700000000) =
      formatDate p r (JsValue.num 1700000000000) ∧
    jsNumber "not a date" = none := by
  refine ⟨rfl, rfl, rfl, ?_, ?_, ?_, ?_, ?_, ?_, by decide⟩
  · intro n h1 h2
    simp only [formatDate]
    rw [if_neg (by simp)]
    rw [if_pos (⟨h1, h2⟩ : 0 < n ∧ n < 1000000000000)]
    rw [if_pos (show dateInRange (n * 1000) from ⟨by omega, by omega⟩)]
  · intro n h1 h2
    simp only [formatDate]
    rw [if_neg (by simp)]
    rw [if_neg (show ¬(0 < n ∧ n < 1000000000000) by omega)]
    rw [if_pos (show dateInRange n from ⟨by omega, by omega⟩)]
  · intro s n hs hn h1 h2
    simp only [formatDate]
    rw [if_neg (by simp [hs])]
    simp only [JsValue.jsString, hn]
    rw [if_pos (⟨h1, h2⟩ : 0 < n ∧ n < 1000000000000)]
    rw [if_pos (show dateInRange (n * 1000) from ⟨by omega, by omega⟩)]
  · intro s ms hs hn hp
    simp only [formatDate]
    rw [if_neg (by simp [hs])]
    simp only [JsValue.jsString, hn, hp]
  · intro s hs hn hp
    simp only [formatDate]
    rw [if_neg (by simp [hs])]
    simp only [JsValue.jsString, hn, hp]
  · simp only [formatDate]
    norm_num [dateInRange]
    simp

/-- C7 witness: with concrete oracles, seconds-range and millisecond inputs
render identically, a seconds-range numeric renders scaled, a numeric string
renders scaled, an unparseable string passes through a rejecting parser
verbatim, and an accepting parser renders a non-numeric string. -/
theorem formatDate_correct_witness :
    formatDate demoParseNone demoRender JsValue.null = "-" ∧
    formatDate demoParseNone demoRender (JsValue.num 1700000000) =
      formatDate demoParseNone demoRender (JsValue.num 1700000000000) ∧
    formatDate demoParseNone demoRender (JsValue.num 5) = "5000" ∧
    formatDate demoParseNone demoRender (JsValue.num 1700000000000) =
      "1700000000000" ∧
    formatDate demoParseNone demoRender (JsValue.str "1700000000") =
      "1700000000000" ∧
    formatDate demoParseNone demoRender (JsValue.str "not a date") = "not a date" ∧
    formatDate demoParseZero demoRender (JsValue.str "not a date") = "0" := by
  have h1 := formatDate_correct demoParseNone demoRender
  have h2 := formatDate_correct demoParseZero demoRender
  refine ⟨h1.1, h1.2.2.2.2.2.2.2.2.1, ?_, ?_, ?_, ?_, ?_⟩
  · exact (h1.2.2.2.1 5 (by decide) (by decide)).trans (by decide)
  · exact (h1.2.2.2.2.1 1700000000000 (by decide) (by decide)).trans (by decide)
  · exact (h1.2.2.2.2.2.1 "1700000000" 1700000000 (by decide) (by decide)
      (by decide) (by decide)).trans (by decide)
  · exact h1.2.2.2.2.2.2.2.1 "not a date" (by decide) (by decide) rfl
  · exact (h2.2.2.2.2.2.2.1 "not a date" 0 (by decide) (by decide) rfl).trans
      (by decide)

/-- C8 counterexample: the repository client's create operation DOES itself
modify the local collection — starting from the empty collection,
`createTask` leaves `[taskA]` prepended, a different collection. -/
theorem createTask_mutates_collection :
    (createTask initialTasksState taskA).tasks = [taskA] ∧
    initialTasksState.tasks = [] ∧
    (createTask initialTasksState taskA).tasks ≠ initialTasksState.tasks := by
  refine ⟨by decide, by decide, by decide⟩

/-- C8 amended: on a successful create the dashboard's handler reloads the
collection in full, so the final collection is the server's list; the
repository client's create operation itself, however, optimistically
prepends the created task to its local collection before that reload
overwrites it. -/
theorem handleSave_reload (st : TasksState) (created : Task) (server : List Task) :
    (handleSaveCreate st created server).tasks = server ∧
    (handleSaveCreate st created server).loading = false ∧
    (createTask st created).tasks = created :: st.tasks := by
  refine ⟨rfl, rfl, rfl⟩

/-- C9: a failed load leaves the loading flag true — it is cleared only by a
fully successful load — and, since the loading pane takes precedence over
the error pane, a failed initial load leaves the view stuck on the loading
state with the recorded error message never rendered. -/
theorem loadTasks_failure_keeps_loading (st : TasksState) (e : JsError)
    (h : st.loading = true) :
    (loadTasks st (Except.error e)).loading = true ∧
    (∀ r : Except JsError (List Task),
      (loadTasks st r).loading = false → ∃ l, r = Except.ok l) ∧
    (loadTasks initialTasksState (Except.error e)).loading = true ∧
    displayedPane (loadTasks initialTasksState (Except.error e)).loading
      (some (getErrorMessage e)) = Pane.loadingPane := by
  refine ⟨by simpa [loadTasks] using h, fun r hr => ?_, rfl, rfl⟩
  cases r with
  | ok l => exact ⟨l, rfl⟩
  | error e2 =>
    rw [show loadTasks st (Except.error e2) = st from rfl, h] at hr
    cases hr

/-- C9 witness: from the initial state a failed load keeps `loading` true
and a successful load clears it. -/
theorem loadTasks_failure_keeps_loading_witness :
    (loadTasks initialTasksState (Except.error (JsError.str "network"))).loading =
      true ∧
    (∃ l, (Except.ok [] : Except JsError (List Task)) = Except.ok l) := by
  have h := loadTasks_failure_keeps_loading initialTasksState
    (JsError.str "network") rfl
  exact ⟨h.1, h.2.1 (Except.ok []) rfl⟩

/-- C10: the filtered view is an order-preserving subsequence of the
collection — a sublist, so every filtered task is in the collection with at
most its original multiplicity and in the original relative order. -/
theorem filteredTasks_sublist (tasks : List Task) (query statusFilter : String) :
    List.Sublist (filteredTasks tasks query statusFilter) tasks ∧
    (∀ t ∈ filteredTasks tasks query statusFilter, t ∈ tasks) ∧
    (∀ t : Task, (filteredTasks tasks query statusFilter).count t ≤
      tasks.count t) := by
  refine ⟨List.filter_sublist tasks, ?_, ?_⟩
  · intro t ht
    exact (List.filter_sublist tasks).subset ht
  · intro t
    exact (List.filter_sublist tasks).count_le t

/-- C10 witness: on a concrete singleton collection the filtered view's
member is in the collection and its multiplicity does not grow. -/
theorem filteredTasks_sublist_witness :
    taskA ∈ [taskA] ∧
    (filteredTasks [taskA] "" "All").count taskA ≤ [taskA].count taskA := by
  have h := filteredTasks_sublist [taskA] "" "All"
  exact ⟨h.2.1 taskA (by decide), h.2.2 taskA⟩

end Dashboard
